import Mathlib

/-!
Verification of the IdleSmith idle/clicker game (`src/idlesmith.jsx`).

The game state and its operations are shallowly embedded: JavaScript
numbers are modelled as exact rationals (`ℚ`), timestamps as `ℤ`
milliseconds, upgrade levels and prestige counters as `ℕ`.
`Math.floor` is `Int.floor`, and `Math.floor (Math.sqrt x)` on a
nonnegative argument is `Nat.sqrt ∘ Int.toNat ∘ Int.floor` (the
standard identity `⌊√x⌋ = ⌊√⌊x⌋⌋`, proved below as
`essenceGain_eq_floor_sqrt`).  Browser-supplied effects
(localStorage reads, `JSON.parse` outcomes, prompt text) are passed in
as explicit arguments.
-/

namespace IdleSmith

/-- JS: `const clamp = (n, min, max) => Math.max(min, Math.min(max, n));` -/
def clamp (n lo hi : ℚ) : ℚ := max lo (min hi n)

/-- The four upgrade keys of `UPGRADE_DEFS`. -/
inductive UpgradeKey where
  | hammer
  | anvil
  | forge
  | apprentice
  deriving DecidableEq, Repr

/-- The `upgrades` sub-record of the save: one integer level per key. -/
structure Upgrades where
  hammer : ℕ
  anvil : ℕ
  forge : ℕ
  apprentice : ℕ
  deriving DecidableEq, Repr

/-- Level lookup `save.upgrades[key]`. -/
def Upgrades.level (u : Upgrades) : UpgradeKey → ℕ
  | .hammer => u.hammer
  | .anvil => u.anvil
  | .forge => u.forge
  | .apprentice => u.apprentice

/-- JS `{ ...s.upgrades, [key]: s.upgrades[key] + 1 }`. -/
def Upgrades.incr (u : Upgrades) : UpgradeKey → Upgrades
  | .hammer => { u with hammer := u.hammer + 1 }
  | .anvil => { u with anvil := u.anvil + 1 }
  | .forge => { u with forge := u.forge + 1 }
  | .apprentice => { u with apprentice := u.apprentice + 1 }

/-- The `prestige` sub-record: `{ count, essence }`. -/
structure Prestige where
  count : ℕ
  essence : ℕ
  deriving DecidableEq, Repr

/-- The persisted save record (`defaultSave`'s shape). -/
structure SaveState where
  version : ℕ
  gold : ℚ
  goldPerClickBase : ℚ
  goldPerSecondBase : ℚ
  upgrades : Upgrades
  prestige : Prestige
  lastTick : ℤ
  deriving DecidableEq, Repr

/-- JS `defaultSave`; its `lastTick: Date.now()` is the time of module
evaluation, passed here as the parameter `t0`. -/
def defaultSave (t0 : ℤ) : SaveState :=
  { version := 1
    gold := 0
    goldPerClickBase := 1
    goldPerSecondBase := 0
    upgrades := { hammer := 0, anvil := 0, forge := 0, apprentice := 0 }
    prestige := { count := 0, essence := 0 }
    lastTick := t0 }

/-- JS `UPGRADE_DEFS[key].baseCost`: hammer 10, anvil 25, forge 100, apprentice 75. -/
def baseCost : UpgradeKey → ℚ
  | .hammer => 10
  | .anvil => 25
  | .forge => 100
  | .apprentice => 75

/-- JS `UPGRADE_DEFS[key].costMult`: hammer 1.15, anvil 1.18, forge 1.25, apprentice 1.22. -/
def costMult : UpgradeKey → ℚ
  | .hammer => 1.15
  | .anvil => 1.18
  | .forge => 1.25
  | .apprentice => 1.22

/-- JS `UPGRADE_DEFS.hammer.effect`: `(lvl) => lvl * 1`. -/
def hammerEffect (lvl : ℕ) : ℚ := lvl * 1

/-- JS `UPGRADE_DEFS.anvil.effect`: `(lvl) => lvl * 0.5`. -/
def anvilEffect (lvl : ℕ) : ℚ := lvl * 0.5

/-- JS `UPGRADE_DEFS.forge.effect`: `(lvl) => 1 + lvl * 0.1`. -/
def forgeEffect (lvl : ℕ) : ℚ := 1 + lvl * 0.1

/-- JS `UPGRADE_DEFS.apprentice.effect`: `(lvl) => lvl` (clicks per second). -/
def apprenticeEffect (lvl : ℕ) : ℚ := lvl

/-- JS: `Math.floor(def.baseCost * Math.pow(def.costMult, lvl))`. -/
def upgradeCost (key : UpgradeKey) (lvl : ℕ) : ℤ :=
  ⌊baseCost key * costMult key ^ lvl⌋

/-- Result record of `computeDerived`. -/
structure Derived where
  click : ℚ
  gps : ℚ
  globalMult : ℚ
  autoClicksPerSec : ℚ
  deriving DecidableEq, Repr

/-- JS `computeDerived(save)`. -/
def computeDerived (save : SaveState) : Derived :=
  let hammer := hammerEffect save.upgrades.hammer
  let anvil := anvilEffect save.upgrades.anvil
  let forgeMult := forgeEffect save.upgrades.forge
  let essenceMult := 1 + (save.prestige.essence : ℚ) * 0.02
  let globalMult := forgeMult * essenceMult
  { click := (save.goldPerClickBase + hammer) * globalMult
    gps := (save.goldPerSecondBase + anvil) * globalMult
    globalMult := globalMult
    autoClicksPerSec := apprenticeEffect save.upgrades.apprentice }

/-- A JSON object as far as the save schema is concerned: the parsed
value of each top-level key of the save, or `none` when the key is
absent.  `{ ...defaultSave, ...parsed }` is a shallow merge, so the
`upgrades` and `prestige` sub-records are taken wholesale when present. -/
structure PartialSave where
  version : Option ℕ := none
  gold : Option ℚ := none
  goldPerClickBase : Option ℚ := none
  goldPerSecondBase : Option ℚ := none
  upgrades : Option Upgrades := none
  prestige : Option Prestige := none
  lastTick : Option ℤ := none
  deriving DecidableEq, Repr

/-- Outcome of `JSON.parse` on present text: it either throws (`err`)
or yields an object (`ok`). -/
inductive ParseOutcome where
  | err
  | ok (p : PartialSave)
  deriving DecidableEq, Repr

/-- The object spread `{ ...d, ...p }`: fields of `p` win, fields
absent from `p` fall back to `d`. -/
def mergeSave (d : SaveState) (p : PartialSave) : SaveState :=
  { version := p.version.getD d.version
    gold := p.gold.getD d.gold
    goldPerClickBase := p.goldPerClickBase.getD d.goldPerClickBase
    goldPerSecondBase := p.goldPerSecondBase.getD d.goldPerSecondBase
    upgrades := p.upgrades.getD d.upgrades
    prestige := p.prestige.getD d.prestige
    lastTick := p.lastTick.getD d.lastTick }

/-- JS `loadSave()`.  `stored` is the state of
`localStorage.getItem("idlesmith-save")` followed by `JSON.parse`:
`none` when the raw text is absent (falsy), `some .err` when parsing
throws (caught, defaults returned), `some (.ok p)` when it parses. -/
def loadSave (t0 : ℤ) (stored : Option ParseOutcome) : SaveState :=
  match stored with
  | none => defaultSave t0
  | some .err => defaultSave t0
  | some (.ok parsed) => mergeSave (defaultSave t0) parsed

/-- JS `doClick`: `gold += click` at the current derived stats. -/
def doClick (s : SaveState) : SaveState :=
  { s with gold := s.gold + (computeDerived s).click }

/-- JS `buyUpgrade(key)`: no-op when `gold < cost`, otherwise pay the
cost and raise the level by one in a single state replacement. -/
def buyUpgrade (key : UpgradeKey) (s : SaveState) : SaveState :=
  let cost : ℚ := upgradeCost key (s.upgrades.level key)
  if s.gold < cost then s
  else
    { s with
      gold := s.gold - cost
      upgrades := s.upgrades.incr key }

/-- JS: `Math.floor(Math.sqrt(save.gold / 5000))`, for nonnegative
gold; `Nat.sqrt ⌊q⌋₊` equals `⌊Real.sqrt q⌋₊` (see
`essenceGain_eq_floor_sqrt`). -/
def essenceGain (s : SaveState) : ℕ :=
  Nat.sqrt (⌊s.gold / 5000⌋.toNat)

/-- JS `doPrestige`, with `Date.now()` passed as `now`: guarded by
`canPrestige = gold >= 50000` and `essenceGain > 0`; on success the
save is replaced by defaults except the prestige record and
`lastTick = now`. -/
def doPrestige (now : ℤ) (s : SaveState) : SaveState :=
  if 50000 ≤ s.gold ∧ 0 < essenceGain s then
    { defaultSave now with
      prestige :=
        { count := s.prestige.count + 1
          essence := s.prestige.essence + essenceGain s } }
  else s

/-- JS `resetAll` (the confirmed branch): `{ ...defaultSave, lastTick: Date.now() }`. -/
def resetAll (now : ℤ) : SaveState := defaultSave now

/-- The offline-progress `deltaSec`:
`clamp((now - save.lastTick) / 1000, 0, 60 * 60 * 8)`. -/
def offlineDelta (now : ℤ) (s : SaveState) : ℚ :=
  clamp (((now - s.lastTick : ℤ) : ℚ) / 1000) 0 (60 * 60 * 8)

/-- The mount-time offline-progress effect, with `Date.now()` passed
as `now`: if `deltaSec > 1` and income exists, credit
`deltaSec * (gps + autoClicksPerSec * click)` and stamp `lastTick`. -/
def applyOffline (now : ℤ) (s : SaveState) : SaveState :=
  let d := computeDerived s
  let deltaSec := offlineDelta now s
  if 1 < deltaSec ∧ (0 < d.gps ∨ 0 < d.autoClicksPerSec) then
    { s with
      gold := s.gold + deltaSec * (d.gps + d.autoClicksPerSec * d.click)
      lastTick := now }
  else s

/-- One `setSave` of the game loop's while-body: one second of income
at the captured derived stats, `lastTick = Date.now()`. -/
def tickIncome (now : ℤ) (s : SaveState) : SaveState :=
  { s with
    gold := s.gold + (computeDerived s).gps
      + (computeDerived s).autoClicksPerSec * (computeDerived s).click
    lastTick := now }

/-- Process-local state of the game-loop closure: `lastFrame.current`,
`carry`, and the gold total the income ticks have built up. -/
structure LoopState where
  lastFrameTime : ℚ
  carry : ℚ
  gold : ℚ
  deriving DecidableEq, Repr

/-- The per-frame delta: `Math.min(0.25, (t - lastFrame.current) / 1000)`. -/
def frameDt (st : LoopState) (t : ℚ) : ℚ :=
  min 0.25 ((t - st.lastFrameTime) / 1000)

/-- The loop body `while (carry >= 1) { gold += income; carry -= 1 }`,
where `income = gps + autoClicksPerSec * click` at the captured stats. -/
def drainCarry (income carry gold : ℚ) : ℚ × ℚ :=
  if 1 ≤ carry then drainCarry income (carry - 1) (gold + income)
  else (carry, gold)
termination_by ⌈carry⌉.toNat
decreasing_by
  rename_i h
  have h1 : (1 : ℤ) ≤ ⌈carry⌉ := by
    calc (1 : ℤ) = ⌈(1 : ℚ)⌉ := by norm_num
    _ ≤ ⌈carry⌉ := Int.ceil_le_ceil h
  have h2 : ⌈carry - 1⌉ = ⌈carry⌉ - 1 := by
    exact_mod_cast Int.ceil_sub_int carry 1
  omega

/-- One animation-frame callback `loop(t)`: clamp the delta,
accumulate it into `carry`, drain whole seconds as income ticks. -/
def frame (income : ℚ) (st : LoopState) (t : ℚ) : LoopState :=
  let dt := frameDt st t
  let drained := drainCarry income (st.carry + dt) st.gold
  { lastFrameTime := t, carry := drained.1, gold := drained.2 }

/-- A sequence of animation-frame callbacks at the given timestamps. -/
def runFrames (income : ℚ) (st : LoopState) (ts : List ℚ) : LoopState :=
  ts.foldl (frame income) st

/-- The parsed view of the Export Save text
`btoa(unescape(encodeURIComponent(JSON.stringify(save))))`: every
top-level key of the save serialized, so decoding and parsing it back
yields the full record (base64 and JSON round-trip losslessly over
these values). -/
def exportSave (s : SaveState) : ParseOutcome :=
  .ok
    { version := some s.version
      gold := some s.gold
      goldPerClickBase := some s.goldPerClickBase
      goldPerSecondBase := some s.goldPerSecondBase
      upgrades := some s.upgrades
      prestige := some s.prestige
      lastTick := some s.lastTick }

/-- The Import Save handler.  `txt` is the prompt text after base64
decode and `JSON.parse`: `none` when the prompt was empty/cancelled
(early return), `some .err` when decoding or parsing throws (alert
"Invalid save code", state untouched), `some (.ok obj)` on success
(`setSave({ ...defaultSave, ...obj })`).  Returns the resulting state
and whether the error alert fired. -/
def importSave (t0 : ℤ) (cur : SaveState) (txt : Option ParseOutcome) :
    SaveState × Bool :=
  match txt with
  | none => (cur, false)
  | some .err => (cur, true)
  | some (.ok obj) => (mergeSave (defaultSave t0) obj, false)

/-! ## Helper lemmas -/

lemma clamp_le_hi (n lo hi : ℚ) (h : lo ≤ hi) : clamp n lo hi ≤ hi :=
  max_le h (min_le_left _ _)

lemma lo_le_clamp (n lo hi : ℚ) : lo ≤ clamp n lo hi :=
  le_max_left _ _

/-- Strictly increasing floors of `b * m ^ L` for `b ≥ 10`, `m ≥ 1.15`:
the step multiplies the (≥ 10) value by at least `23/20`, adding at
least `3/2`, which pushes the floor up by at least one. -/
lemma floor_base_mul_pow_lt (b m : ℚ) (hb : 10 ≤ b) (hm : 23 / 20 ≤ m) (L : ℕ) :
    ⌊b * m ^ L⌋ < ⌊b * m ^ (L + 1)⌋ := by
  have hm1 : (1 : ℚ) ≤ m := le_trans (by norm_num) hm
  have hx : 10 ≤ b * m ^ L := by
    have hpow : (1 : ℚ) ≤ m ^ L := one_le_pow₀ hm1
    nlinarith
  have hstep : b * m ^ L + 3 / 2 ≤ b * m ^ (L + 1) := by
    have hrw : b * m ^ (L + 1) = b * m ^ L * m := by ring
    nlinarith
  have hfl : (⌊b * m ^ L⌋ : ℚ) ≤ b * m ^ L := Int.floor_le _
  have : ⌊b * m ^ L⌋ + 1 ≤ ⌊b * m ^ (L + 1)⌋ := by
    rw [Int.le_floor]
    push_cast
    linarith
  omega

/-! ## Claim theorems -/

/-- C5: for every upgrade key and level `L ≥ 0`,
`cost(key, L) = floor(baseCost[key] * costMult[key]^L)` and
`cost(key, L+1) > cost(key, L)`: the cost curve is strictly
increasing, floor included. -/
theorem upgradeCost_formula_and_strictMono (key : UpgradeKey) (L : ℕ) :
    upgradeCost key L = ⌊baseCost key * costMult key ^ L⌋ ∧
      upgradeCost key L < upgradeCost key (L + 1) := by
  refine ⟨rfl, ?_⟩
  cases key <;>
    exact floor_base_mul_pow_lt _ _ (by norm_num [baseCost]) (by norm_num [costMult]) L

/-- The derived-stats formulas exactly as §4.1 of the specification
writes them, for comparison with `computeDerived`. -/
def derivedSpec (s : SaveState) : Derived :=
  let hammerBonus := (s.upgrades.hammer : ℚ) * 1
  let anvilBonus := (s.upgrades.anvil : ℚ) * 0.5
  let forgeMult := 1 + (s.upgrades.forge : ℚ) * 0.1
  let essenceMult := 1 + (s.prestige.essence : ℚ) * 0.02
  let globalMult := forgeMult * essenceMult
  { click := (s.goldPerClickBase + hammerBonus) * globalMult
    gps := (s.goldPerSecondBase + anvilBonus) * globalMult
    globalMult := globalMult
    autoClicksPerSec := (s.upgrades.apprentice : ℚ) }

/-- C9: `computeDerived` is a pure function matching the spec's
formulas field for field, and on the default save it yields
`click = 1` and `gps = 0`. -/
theorem computeDerived_spec :
    (∀ s : SaveState, computeDerived s = derivedSpec s) ∧
      (∀ t0 : ℤ, (computeDerived (defaultSave t0)).click = 1 ∧
        (computeDerived (defaultSave t0)).gps = 0) := by
  constructor
  · intro s
    rfl
  · intro t0
    constructor <;> norm_num [computeDerived, defaultSave, hammerEffect,
      anvilEffect, forgeEffect, apprenticeEffect]

/-- C10: the concrete cost-table constants: base costs 10 / 25 / 75 /
100 for hammer / anvil / apprentice / forge with multipliers 1.15 /
1.18 / 1.22 / 1.25, and `cost(key, 0) = baseCost[key]`. -/
theorem upgrade_constants :
    baseCost .hammer = 10 ∧ baseCost .anvil = 25 ∧
      baseCost .apprentice = 75 ∧ baseCost .forge = 100 ∧
      costMult .hammer = 1.15 ∧ costMult .anvil = 1.18 ∧
      costMult .apprentice = 1.22 ∧ costMult .forge = 1.25 ∧
      upgradeCost .hammer 0 = 10 ∧ upgradeCost .anvil 0 = 25 ∧
      upgradeCost .apprentice 0 = 75 ∧ upgradeCost .forge 0 = 100 := by
  norm_num [baseCost, costMult, upgradeCost]

/-- Levels and bumped levels, key by key. -/
lemma level_incr (u : Upgrades) (k k2 : UpgradeKey) :
    (u.incr k).level k = u.level k + 1 ∧
      (k2 ≠ k → (u.incr k).level k2 = u.level k2) := by
  constructor
  · cases k <;> rfl
  · intro hne
    cases k <;> cases k2 <;> simp_all [Upgrades.level, Upgrades.incr]

/-- C3: a purchase is guarded and atomic: with `gold < cost` the whole
save is unchanged (silent no-op); with `gold ≥ cost` a single state
replacement pays exactly the cost and raises exactly that upgrade's
level by one, touching nothing else. -/
theorem buyUpgrade_atomic (key : UpgradeKey) (s : SaveState) :
    (s.gold < (upgradeCost key (s.upgrades.level key) : ℚ) →
      buyUpgrade key s = s) ∧
    ((upgradeCost key (s.upgrades.level key) : ℚ) ≤ s.gold →
      (buyUpgrade key s).gold =
          s.gold - (upgradeCost key (s.upgrades.level key) : ℚ) ∧
        (buyUpgrade key s).upgrades.level key = s.upgrades.level key + 1 ∧
        (∀ k2, k2 ≠ key →
          (buyUpgrade key s).upgrades.level k2 = s.upgrades.level k2) ∧
        (buyUpgrade key s).version = s.version ∧
        (buyUpgrade key s).goldPerClickBase = s.goldPerClickBase ∧
        (buyUpgrade key s).goldPerSecondBase = s.goldPerSecondBase ∧
        (buyUpgrade key s).prestige = s.prestige ∧
        (buyUpgrade key s).lastTick = s.lastTick) := by
  constructor
  · intro h
    simp only [buyUpgrade]
    rw [if_pos h]
  · intro h
    simp only [buyUpgrade]
    rw [if_neg (not_lt.mpr h)]
    refine ⟨rfl, (level_incr s.upgrades key key).1, ?_, rfl, rfl, rfl, rfl, rfl⟩
    intro k2 hne
    exact (level_incr s.upgrades key k2).2 hne

/-- Witness for C3: with exactly 10 gold, buying the first hammer
level (cost 10) leaves 0 gold and hammer level 1. -/
theorem buyUpgrade_atomic_witness :
    (buyUpgrade .hammer { defaultSave 0 with gold := 10 }).gold = 0 ∧
      (buyUpgrade .hammer { defaultSave 0 with gold := 10 }).upgrades.level .hammer = 1 := by
  have h := (buyUpgrade_atomic .hammer { defaultSave 0 with gold := 10 }).2
    (by norm_num [upgradeCost, baseCost, costMult, defaultSave, Upgrades.level])
  refine ⟨?_, ?_⟩
  · rw [h.1]
    norm_num [upgradeCost, baseCost, costMult, defaultSave, Upgrades.level]
  · rw [h.2.1]
    rfl

/-- Evaluation fact `⌊√10⌋ = 3` over the naturals. -/
lemma natSqrt_ten : Nat.sqrt 10 = 3 :=
  (Nat.eq_sqrt.mpr ⟨by norm_num, by norm_num⟩).symm

/-- Having `gold ≥ 50000` forces `essenceGain ≥ 3` (monotonicity of the
integer square root at `⌊gold/5000⌋ ≥ 10`). -/
lemma three_le_essenceGain (s : SaveState) (h : 50000 ≤ s.gold) :
    3 ≤ essenceGain s := by
  unfold essenceGain
  have h1 : (10 : ℚ) ≤ s.gold / 5000 := by
    rw [le_div_iff₀ (by norm_num : (0 : ℚ) < 5000)]
    linarith
  have h2 : (10 : ℤ) ≤ ⌊s.gold / 5000⌋ := Int.le_floor.mpr (by exact_mod_cast h1)
  have h3 : 10 ≤ ⌊s.gold / 5000⌋.toNat := by omega
  have h4 : Nat.sqrt 10 ≤ Nat.sqrt ⌊s.gold / 5000⌋.toNat := Nat.sqrt_le_sqrt h3
  rw [natSqrt_ten] at h4
  exact h4


/-- At exactly 50000 gold, `essenceGain = ⌊√10⌋ = 3`. -/
lemma essenceGain_at_50000 (s : SaveState) (h : s.gold = 50000) :
    essenceGain s = 3 := by
  unfold essenceGain
  rw [h]
  have h1 : (50000 : ℚ) / 5000 = 10 := by norm_num
  rw [h1]
  have h2 : ⌊(10 : ℚ)⌋ = 10 := by
    exact_mod_cast Int.floor_intCast (α := ℚ) 10
  rw [h2]
  exact natSqrt_ten

/-- The executable `essenceGain` equals the source's
`Math.floor(Math.sqrt(gold / 5000))` read over the reals, for
nonnegative gold. -/
lemma essenceGain_eq_floor_sqrt (s : SaveState) (hq : 0 ≤ s.gold) :
    (essenceGain s : ℤ) = ⌊Real.sqrt ((s.gold : ℝ) / 5000)⌋ := by
  have hq5 : (0 : ℚ) ≤ s.gold / 5000 := by positivity
  set q : ℚ := s.gold / 5000 with hqdef
  have hcast : ((s.gold : ℝ)) / 5000 = (q : ℝ) := by
    rw [hqdef]
    push_cast
    ring
  rw [hcast]
  have hqR : (0 : ℝ) ≤ (q : ℝ) := by exact_mod_cast hq5
  have key : ∀ n : ℕ, n ≤ ⌊Real.sqrt (q : ℝ)⌋₊ ↔ n ≤ Nat.sqrt ⌊q⌋₊ := by
    intro n
    rw [Nat.le_floor_iff (Real.sqrt_nonneg _),
      Real.le_sqrt (Nat.cast_nonneg n) hqR, Nat.le_sqrt]
    constructor
    · intro hle
      have hratn : ((n ^ 2 : ℕ) : ℚ) ≤ q := by exact_mod_cast hle
      have := Nat.le_floor hratn
      calc n * n = n ^ 2 := by ring
      _ ≤ ⌊q⌋₊ := this
    · intro hle
      have h1 : ((n * n : ℕ) : ℚ) ≤ q :=
        le_trans (by exact_mod_cast Nat.cast_le.mpr hle : ((n * n : ℕ) : ℚ) ≤ (⌊q⌋₊ : ℚ))
          (Nat.floor_le hq5)
      have : ((n * n : ℕ) : ℝ) ≤ (q : ℝ) := by exact_mod_cast h1
      calc ((n : ℝ)) ^ 2 = ((n * n : ℕ) : ℝ) := by push_cast; ring
      _ ≤ (q : ℝ) := this
  have hnat : ⌊Real.sqrt (q : ℝ)⌋₊ = Nat.sqrt ⌊q⌋₊ :=
    le_antisymm ((key _).mp le_rfl) ((key _).mpr le_rfl)
  have hflnonneg : 0 ≤ ⌊Real.sqrt (q : ℝ)⌋ :=
    Int.floor_nonneg.mpr (Real.sqrt_nonneg _)
  have hfl : ⌊Real.sqrt (q : ℝ)⌋ = (⌊Real.sqrt (q : ℝ)⌋₊ : ℤ) := by
    rw [← Int.floor_toNat]
    omega
  rw [hfl, hnat]
  unfold essenceGain
  rw [Int.floor_toNat]

/-- C6: prestige is guarded by `gold ≥ 50000` and a positive essence
gain (which `gold ≥ 50000` in fact forces); when it fires, the save is
replaced by defaults except the prestige counters and
`lastTick = now`; otherwise it is a no-op; at `gold = 50000` the gain
is `⌊√10⌋ = 3`. -/
theorem doPrestige_spec (now : ℤ) (s : SaveState) :
    (50000 ≤ s.gold →
      0 < essenceGain s ∧
      doPrestige now s =
        { defaultSave now with
          prestige := { count := s.prestige.count + 1
                        essence := s.prestige.essence + essenceGain s } }) ∧
    (¬(50000 ≤ s.gold ∧ 0 < essenceGain s) → doPrestige now s = s) ∧
    (s.gold = 50000 → essenceGain s = 3) ∧
    (50000 ≤ s.gold →
      (doPrestige now s).gold = 0 ∧
      (doPrestige now s).upgrades =
          { hammer := 0, anvil := 0, forge := 0, apprentice := 0 } ∧
      (doPrestige now s).prestige.count = s.prestige.count + 1 ∧
      (doPrestige now s).prestige.essence = s.prestige.essence + essenceGain s ∧
      (doPrestige now s).lastTick = now) := by
  have hmain : ∀ h : 50000 ≤ s.gold,
      doPrestige now s =
        { defaultSave now with
          prestige := { count := s.prestige.count + 1
                        essence := s.prestige.essence + essenceGain s } } := by
    intro h
    have hpos : 0 < essenceGain s := by
      have := three_le_essenceGain s h
      omega
    simp only [doPrestige]
    rw [if_pos ⟨h, hpos⟩]
  refine ⟨?_, ?_, essenceGain_at_50000 s, ?_⟩
  · intro h
    have hpos : 0 < essenceGain s := by
      have := three_le_essenceGain s h
      omega
    exact ⟨hpos, hmain h⟩
  · intro h
    simp only [doPrestige]
    rw [if_neg h]
  · intro h
    rw [hmain h]
    exact ⟨rfl, rfl, rfl, rfl, rfl⟩

/-- Witness for C6: prestiging at exactly 50000 gold yields gain 3,
resets gold and all upgrade levels, and bumps the counters. -/
theorem doPrestige_spec_witness :
    essenceGain { defaultSave 0 with gold := 50000 } = 3 ∧
      (doPrestige 7 { defaultSave 0 with gold := 50000 }).gold = 0 ∧
      (doPrestige 7 { defaultSave 0 with gold := 50000 }).upgrades =
        { hammer := 0, anvil := 0, forge := 0, apprentice := 0 } ∧
      (doPrestige 7 { defaultSave 0 with gold := 50000 }).prestige.essence = 3 := by
  have hth := doPrestige_spec 7 { defaultSave 0 with gold := 50000 }
  have hg : (50000 : ℚ) ≤ ({ defaultSave 0 with gold := 50000 } : SaveState).gold := by
    norm_num
  have hgain := hth.2.2.1 rfl
  have hrest := hth.2.2.2 hg
  refine ⟨hgain, hrest.1, hrest.2.1, ?_⟩
  rw [hrest.2.2.2.1, hgain]
  norm_num [defaultSave]

/-- Unfolding of `computeDerived`, `click` field. -/
lemma computeDerived_click (s : SaveState) :
    (computeDerived s).click =
      (s.goldPerClickBase + hammerEffect s.upgrades.hammer) *
        (forgeEffect s.upgrades.forge * (1 + (s.prestige.essence : ℚ) * 0.02)) := rfl

/-- Unfolding of `computeDerived`, `gps` field. -/
lemma computeDerived_gps (s : SaveState) :
    (computeDerived s).gps =
      (s.goldPerSecondBase + anvilEffect s.upgrades.anvil) *
        (forgeEffect s.upgrades.forge * (1 + (s.prestige.essence : ℚ) * 0.02)) := rfl

/-- Unfolding of `computeDerived`, `autoClicksPerSec` field. -/
lemma computeDerived_auto (s : SaveState) :
    (computeDerived s).autoClicksPerSec = (s.upgrades.apprentice : ℚ) := rfl

/-- With nonnegative base rates every derived stat is nonnegative
(levels and essence are naturals, the multipliers are ≥ 1). -/
lemma computeDerived_nonneg (s : SaveState)
    (hc : 0 ≤ s.goldPerClickBase) (hs : 0 ≤ s.goldPerSecondBase) :
    0 ≤ (computeDerived s).click ∧ 0 ≤ (computeDerived s).gps ∧
      0 ≤ (computeDerived s).autoClicksPerSec := by
  rw [computeDerived_click, computeDerived_gps, computeDerived_auto]
  unfold hammerEffect anvilEffect forgeEffect
  have hh : (0 : ℚ) ≤ (s.upgrades.hammer : ℚ) * 1 := by positivity
  have ha : (0 : ℚ) ≤ (s.upgrades.anvil : ℚ) * 0.5 := by positivity
  have hf : (0 : ℚ) ≤ 1 + (s.upgrades.forge : ℚ) * 0.1 := by positivity
  have he : (0 : ℚ) ≤ 1 + (s.prestige.essence : ℚ) * 0.02 := by positivity
  exact ⟨mul_nonneg (add_nonneg hc hh) (mul_nonneg hf he),
    mul_nonneg (add_nonneg hs ha) (mul_nonneg hf he), by positivity⟩

/-- C1: the startup offline-progress step: when `deltaSec > 1` and
some income source exists, it credits exactly
`deltaSec * (gps + autoClicksPerSec * click)` and stamps
`lastTick = now`; and in every case the credited gold is bounded by
`28800 * (gps + autoClicksPerSec * click)`, however old `lastTick`
is. -/
theorem offline_progress_spec (now : ℤ) (s : SaveState)
    (hc : 0 ≤ s.goldPerClickBase) (hs : 0 ≤ s.goldPerSecondBase) :
    (1 < offlineDelta now s ∧
        (0 < (computeDerived s).gps ∨ 0 < (computeDerived s).autoClicksPerSec) →
      (applyOffline now s).gold =
          s.gold + offlineDelta now s *
            ((computeDerived s).gps +
              (computeDerived s).autoClicksPerSec * (computeDerived s).click) ∧
        (applyOffline now s).lastTick = now) ∧
    (applyOffline now s).gold - s.gold ≤
      28800 * ((computeDerived s).gps +
        (computeDerived s).autoClicksPerSec * (computeDerived s).click) := by
  obtain ⟨hclick, hgps, hauto⟩ := computeDerived_nonneg s hc hs
  have hrate : 0 ≤ (computeDerived s).gps +
      (computeDerived s).autoClicksPerSec * (computeDerived s).click :=
    add_nonneg hgps (mul_nonneg hauto hclick)
  have hcap : offlineDelta now s ≤ 28800 := by
    have := clamp_le_hi (((now - s.lastTick : ℤ) : ℚ) / 1000) 0 (60 * 60 * 8)
      (by norm_num)
    unfold offlineDelta
    linarith
  constructor
  · intro h
    simp only [applyOffline]
    rw [if_pos h]
    exact ⟨rfl, rfl⟩
  · by_cases h : 1 < offlineDelta now s ∧
        (0 < (computeDerived s).gps ∨ 0 < (computeDerived s).autoClicksPerSec)
    · simp only [applyOffline]
      rw [if_pos h]
      have := mul_le_mul_of_nonneg_right hcap hrate
      simp only
      linarith
    · simp only [applyOffline]
      rw [if_neg h]
      have : (0 : ℚ) ≤ 28800 * ((computeDerived s).gps +
          (computeDerived s).autoClicksPerSec * (computeDerived s).click) := by
        positivity
      linarith

/-- Witness for C1: the spec's example: `lastTick = now − 10000 ms`,
`gps = 5` (ten anvil levels), no autoclicks: the credit is
`10 × 5 = 50` gold and `lastTick` becomes `now`. -/
theorem offline_progress_spec_witness :
    (applyOffline 10000
        { defaultSave 0 with
          upgrades := { hammer := 0, anvil := 10, forge := 0, apprentice := 0 } }).gold = 50 ∧
      (applyOffline 10000
        { defaultSave 0 with
          upgrades := { hammer := 0, anvil := 10, forge := 0, apprentice := 0 } }).lastTick = 10000 := by
  have hδ : offlineDelta 10000
      { defaultSave 0 with
        upgrades := { hammer := 0, anvil := 10, forge := 0, apprentice := 0 } } = 10 := by
    norm_num [offlineDelta, clamp, defaultSave, min_def, max_def]
  have h := (offline_progress_spec 10000
      { defaultSave 0 with
        upgrades := { hammer := 0, anvil := 10, forge := 0, apprentice := 0 } }
      (by norm_num [defaultSave]) (by norm_num [defaultSave])).1
    ⟨by rw [hδ]; norm_num,
      Or.inl (by norm_num [computeDerived_gps, defaultSave, anvilEffect, forgeEffect])⟩
  refine ⟨?_, h.2⟩
  rw [h.1, hδ]
  norm_num [computeDerived_gps, computeDerived_auto, defaultSave, anvilEffect, forgeEffect]

/-- The while loop returns immediately below one accumulated second. -/
lemma drainCarry_of_lt_one (income carry gold : ℚ) (h : carry < 1) :
    drainCarry income carry gold = (carry, gold) := by
  unfold drainCarry
  rw [if_neg (not_le.mpr h)]

/-- Below two accumulated seconds the while loop runs at most once. -/
lemma drainCarry_of_lt_two (income carry gold : ℚ) (h : carry < 2) :
    drainCarry income carry gold =
      if 1 ≤ carry then (carry - 1, gold + income) else (carry, gold) := by
  by_cases h1 : 1 ≤ carry
  · rw [if_pos h1]
    unfold drainCarry
    rw [if_pos h1]
    exact drainCarry_of_lt_one income (carry - 1) (gold + income) (by linarith)
  · rw [if_neg h1]
    exact drainCarry_of_lt_one income carry gold (not_le.mp h1)

/-- C2: the fixed-step accumulator clamps each frame's delta at
0.25 s; from a sub-second carry a frame applies at most one second of
income and keeps the carry sub-second; and on the frame timestamps
0 ms, 1500 ms, 1600 ms the loop absorbs only `0.25 + 0.1 = 0.35 ≤ 0.5`
seconds of simulated time and applies no income at all — not the 1.5 s
of wall time. -/
theorem gameLoop_accumulator_spec :
    (∀ (st : LoopState) (t : ℚ), frameDt st t ≤ 0.25) ∧
    (∀ (income : ℚ) (st : LoopState) (t : ℚ), st.carry < 1 →
      ((frame income st t).gold = st.gold ∨
          (frame income st t).gold = st.gold + income) ∧
        (frame income st t).carry < 1) ∧
    (∀ income : ℚ,
      runFrames income ⟨0, 0, 0⟩ [0, 1500, 1600] = ⟨1600, 7 / 20, 0⟩ ∧
        (7 / 20 : ℚ) ≤ 1 / 2) := by
  have hdt_le : ∀ (st : LoopState) (t : ℚ), frameDt st t ≤ 0.25 :=
    fun st t => min_le_left _ _
  refine ⟨hdt_le, ?_, ?_⟩
  · intro income st t h
    have hc2 : st.carry + frameDt st t < 2 := by
      have := hdt_le st t
      norm_num at this ⊢
      linarith
    simp only [frame]
    rw [drainCarry_of_lt_two income _ st.gold hc2]
    by_cases h1 : 1 ≤ st.carry + frameDt st t
    · rw [if_pos h1]
      exact ⟨Or.inr rfl, by simp only; linarith⟩
    · rw [if_neg h1]
      exact ⟨Or.inl rfl, by simp only; exact not_le.mp h1⟩
  · intro income
    refine ⟨?_, by norm_num⟩
    have s1 : frame income ⟨0, 0, 0⟩ 0 = ⟨0, 0, 0⟩ := by
      have hdt : frameDt ⟨0, 0, 0⟩ 0 = 0 := by
        simp only [frameDt]
        norm_num [min_def]
      simp only [frame, hdt]
      rw [show (0 : ℚ) + 0 = 0 from by norm_num,
        drainCarry_of_lt_one income 0 0 (by norm_num)]
    have s2 : frame income ⟨0, 0, 0⟩ 1500 = ⟨1500, 1 / 4, 0⟩ := by
      have hdt : frameDt ⟨0, 0, 0⟩ 1500 = 1 / 4 := by
        simp only [frameDt]
        norm_num [min_def]
      simp only [frame, hdt]
      rw [show (0 : ℚ) + 1 / 4 = 1 / 4 from by norm_num,
        drainCarry_of_lt_one income (1 / 4) 0 (by norm_num)]
    have s3 : frame income ⟨1500, 1 / 4, 0⟩ 1600 = ⟨1600, 7 / 20, 0⟩ := by
      have hdt : frameDt ⟨1500, 1 / 4, 0⟩ 1600 = 1 / 10 := by
        simp only [frameDt]
        norm_num [min_def]
      simp only [frame, hdt]
      rw [show (1 / 4 : ℚ) + 1 / 10 = 7 / 20 from by norm_num,
        drainCarry_of_lt_one income (7 / 20) 0 (by norm_num)]
    simp only [runFrames, List.foldl, s1, s2, s3]

/-- Witness for C2: one frame from an empty accumulator with a 2 s
stall applies at most one tick and leaves the carry below one. -/
theorem gameLoop_accumulator_spec_witness :
    ((frame 1 ⟨0, 0, 0⟩ 2000).gold = 0 ∨
        (frame 1 ⟨0, 0, 0⟩ 2000).gold = 0 + 1) ∧
      (frame 1 ⟨0, 0, 0⟩ 2000).carry < 1 :=
  gameLoop_accumulator_spec.2.1 1 ⟨0, 0, 0⟩ 2000 (by norm_num)

/-- C7: `loadSave` is total (never throws): absent or unparsable
storage yields exactly the default save, and a parsed object is
shallow-merged over the defaults — every present field wins, every
missing field falls back to the default, field by field. -/
theorem loadSave_spec (t0 : ℤ) (p : PartialSave) :
    loadSave t0 none = defaultSave t0 ∧
    loadSave t0 (some .err) = defaultSave t0 ∧
    loadSave t0 (some (.ok p)) = mergeSave (defaultSave t0) p ∧
    (p.version = none → (loadSave t0 (some (.ok p))).version = (defaultSave t0).version) ∧
    (∀ v, p.version = some v → (loadSave t0 (some (.ok p))).version = v) ∧
    (p.gold = none → (loadSave t0 (some (.ok p))).gold = (defaultSave t0).gold) ∧
    (∀ v, p.gold = some v → (loadSave t0 (some (.ok p))).gold = v) ∧
    (p.goldPerClickBase = none →
      (loadSave t0 (some (.ok p))).goldPerClickBase = (defaultSave t0).goldPerClickBase) ∧
    (∀ v, p.goldPerClickBase = some v →
      (loadSave t0 (some (.ok p))).goldPerClickBase = v) ∧
    (p.goldPerSecondBase = none →
      (loadSave t0 (some (.ok p))).goldPerSecondBase = (defaultSave t0).goldPerSecondBase) ∧
    (∀ v, p.goldPerSecondBase = some v →
      (loadSave t0 (some (.ok p))).goldPerSecondBase = v) ∧
    (p.upgrades = none → (loadSave t0 (some (.ok p))).upgrades = (defaultSave t0).upgrades) ∧
    (∀ v, p.upgrades = some v → (loadSave t0 (some (.ok p))).upgrades = v) ∧
    (p.prestige = none → (loadSave t0 (some (.ok p))).prestige = (defaultSave t0).prestige) ∧
    (∀ v, p.prestige = some v → (loadSave t0 (some (.ok p))).prestige = v) ∧
    (p.lastTick = none → (loadSave t0 (some (.ok p))).lastTick = (defaultSave t0).lastTick) ∧
    (∀ v, p.lastTick = some v → (loadSave t0 (some (.ok p))).lastTick = v) := by
  refine ⟨rfl, rfl, rfl, ?_, ?_, ?_, ?_, ?_, ?_, ?_, ?_, ?_, ?_, ?_, ?_, ?_, ?_⟩ <;>
    first
      | (intro h; simp [loadSave, mergeSave, h])
      | (intro v h; simp [loadSave, mergeSave, h])

/-- Witness for C7: loading `{"gold": 7}` keeps gold 7 and fills the
missing `version` from the defaults. -/
theorem loadSave_spec_witness :
    (loadSave 0 (some (.ok { gold := some 7 }))).gold = 7 ∧
      (loadSave 0 (some (.ok { gold := some 7 }))).version = (defaultSave 0).version := by
  have h := loadSave_spec 0 { gold := some 7 }
  exact ⟨h.2.2.2.2.2.2.1 7 rfl, h.2.2.2.1 rfl⟩

/-- C8: importing an exported save restores it exactly, for every save
state and regardless of the current state and of the defaults' load
time; a malformed code raises the user-facing error and leaves the
state untouched; an empty prompt is a silent no-op. -/
theorem import_export_roundtrip (t0 : ℤ) (cur s : SaveState) :
    importSave t0 cur (some (exportSave s)) = (s, false) ∧
      importSave t0 cur (some .err) = (cur, true) ∧
      importSave t0 cur none = (cur, false) :=
  ⟨rfl, rfl, rfl⟩

/-- C4 counterexample: from the default save (a reachable state with
`gold = 0`), importing the well-formed payload `{"gold": -1}` — the
base64 of that JSON — yields a state with `gold < 0`: load/import
perform no field validation. -/
theorem gold_nonneg_cex :
    (importSave 0 (defaultSave 0) (some (.ok { gold := some (-1) }))).1.gold < 0 := by
  norm_num [importSave, mergeSave]

/-- C4 (amended): every in-game operation — click, purchase,
per-second tick, offline catch-up, prestige, hard reset — preserves
`gold ≥ 0`, and load/import yield `gold ≥ 0` whenever the decoded
object's gold field is absent or nonnegative; unvalidated payloads are
the only way to leave the nonnegative region (see `gold_nonneg_cex`). -/
theorem gold_nonneg_preserved (t0 now : ℤ) (s : SaveState) (k : UpgradeKey)
    (p : PartialSave) (hg : 0 ≤ s.gold)
    (hc : 0 ≤ s.goldPerClickBase) (hs : 0 ≤ s.goldPerSecondBase) :
    0 ≤ (doClick s).gold ∧
    0 ≤ (buyUpgrade k s).gold ∧
    0 ≤ (tickIncome now s).gold ∧
    0 ≤ (applyOffline now s).gold ∧
    0 ≤ (doPrestige now s).gold ∧
    0 ≤ (resetAll now).gold ∧
    0 ≤ (loadSave t0 none).gold ∧
    0 ≤ (loadSave t0 (some .err)).gold ∧
    ((∀ g, p.gold = some g → 0 ≤ g) → 0 ≤ (loadSave t0 (some (.ok p))).gold) ∧
    ((∀ g, p.gold = some g → 0 ≤ g) →
      0 ≤ (importSave t0 s (some (.ok p))).1.gold) ∧
    0 ≤ (importSave t0 s (some .err)).1.gold ∧
    0 ≤ (importSave t0 s none).1.gold := by
  obtain ⟨hclick, hgps, hauto⟩ := computeDerived_nonneg s hc hs
  have hrate : 0 ≤ (computeDerived s).gps +
      (computeDerived s).autoClicksPerSec * (computeDerived s).click :=
    add_nonneg hgps (mul_nonneg hauto hclick)
  have hmerge : (∀ g, p.gold = some g → 0 ≤ g) →
      0 ≤ (mergeSave (defaultSave t0) p).gold := by
    intro hp
    cases hpg : p.gold with
    | none => simp [mergeSave, hpg, defaultSave]
    | some g => simp only [mergeSave, hpg, Option.getD_some]; exact hp g hpg
  refine ⟨?_, ?_, ?_, ?_, ?_, ?_, ?_, ?_, ?_, ?_, ?_, ?_⟩
  · exact add_nonneg hg hclick
  · simp only [buyUpgrade]
    split
    · exact hg
    · rename_i h
      simp only
      have := not_lt.mp h
      linarith
  · exact add_nonneg (add_nonneg hg hgps) (mul_nonneg hauto hclick)
  · simp only [applyOffline]
    split
    · simp only
      have hδ : 0 ≤ offlineDelta now s := lo_le_clamp _ 0 _
      have := mul_nonneg hδ hrate
      linarith
    · exact hg
  · simp only [doPrestige]
    split
    · norm_num [defaultSave]
    · exact hg
  · norm_num [resetAll, defaultSave]
  · norm_num [loadSave, defaultSave]
  · norm_num [loadSave, defaultSave]
  · exact hmerge
  · exact hmerge
  · exact hg
  · exact hg

/-- Witness for C4 (amended): the preservation conjuncts instantiated
at the default save and the empty payload. -/
theorem gold_nonneg_preserved_witness :
    0 ≤ (doClick (defaultSave 0)).gold ∧
      0 ≤ (importSave 0 (defaultSave 0) (some (.ok {}))).1.gold := by
  have h := gold_nonneg_preserved 0 0 (defaultSave 0) .hammer {}
    (by norm_num [defaultSave]) (by norm_num [defaultSave])
    (by norm_num [defaultSave])
  refine ⟨h.1, h.2.2.2.2.2.2.2.2.2.1 ?_⟩
  intro g hgeq
  simp at hgeq

end IdleSmith
